import Mathlib

/-!
Verification of the shop/order subsystem of aradesign/x-ui.

Shallow embedding of `web/service/shop.go` (ShopService) and the shop
controller (`approveOrder`, `rejectOrder`, `getReceipt`, `listInbounds`).
The persistence backend (GORM) is modelled as a list of records; a
partial-field `Updates` call with a `Where id = ?` clause maps the matching
records and reports no error when zero rows match (GORM raises
`ErrRecordNotFound` only from `First`/`Take`, never from `Updates`).
`time.Now()` is passed in as an abstract tick `now : Nat`.
Go `int`/`int64` arithmetic is 64-bit two's complement; where overflow can
matter we reduce through `wrap64`.
-/

/-! ## Data model -/

def OrderStatusPendingReceipt : String := "PENDING_RECEIPT"

def OrderStatusPendingReview : String := "PENDING_REVIEW"

def OrderStatusApproved : String := "APPROVED"

def OrderStatusRejected : String := "REJECTED"

/-- An order row (`model.ShopOrder`): identity, status, receipt artifact
reference, provisioned account identity, timestamps. -/
structure ShopOrder where
  Id : Int
  TelegramId : Int
  PackageId : Int
  Status : String
  ReceiptPath : String
  ReceiptFileId : String
  ClientEmail : String
  ClientId : String
  ClientSubId : String
  CreatedAt : Nat
  UpdatedAt : Nat
deriving DecidableEq, Repr

/-! ## Validation & pricing (`ValidateCustomOrder`, `CalculateCustomPrice`) -/

/-- `ValidateCustomOrder(dataGB, days)`: the four configured bounds are read
from settings (read errors ignored in the source, the value is used as
returned); each bound applies only when strictly positive.  Returns the
error message of the first violated check, `none` on success. -/
def ValidateCustomOrder (minGb maxGb minDays maxDays : Int) (dataGB days : Int) :
    Option String :=
  if minGb > 0 ∧ dataGB < minGb then some "data less than minimum allowed"
  else if maxGb > 0 ∧ dataGB > maxGb then some "data greater than maximum allowed"
  else if minDays > 0 ∧ days < minDays then some "days less than minimum allowed"
  else if maxDays > 0 ∧ days > maxDays then some "days greater than maximum allowed"
  else none

/-- 64-bit two's complement wraparound of Go `int` arithmetic. -/
def wrap64 (x : Int) : Int := (x + 2 ^ 63) % 2 ^ 64 - 2 ^ 63

/-- `CalculateCustomPrice(dataGB)`: propagates a settings read error,
clamps a negative per-GB rate to zero, then returns `dataGB * pricePerGb`
(Go `int` multiplication, hence 64-bit wraparound). -/
def CalculateCustomPrice (rateResult : Except String Int) (dataGB : Int) :
    Except String Int :=
  match rateResult with
  | .error e => .error e
  | .ok rate =>
    let pricePerGb := if rate < 0 then 0 else rate
    .ok (wrap64 (dataGB * pricePerGb))

/-- A positive configured bound is violated. -/
def boundViolated (minGb maxGb minDays maxDays dataGB days : Int) : Prop :=
  (minGb > 0 ∧ dataGB < minGb) ∨ (maxGb > 0 ∧ dataGB > maxGb) ∨
  (minDays > 0 ∧ days < minDays) ∨ (maxDays > 0 ∧ days > maxDays)

instance (minGb maxGb minDays maxDays dataGB days : Int) :
    Decidable (boundViolated minGb maxGb minDays maxDays dataGB days) := by
  unfold boundViolated; infer_instance

/-- Claim C6: `ValidateCustomOrder` fails exactly when a configured positive
bound is violated (a zero or negative bound imposes no limit), and with
min=10, max=100 GB, min=7, max=365 days: `(5, 30)` fails with the
data-too-low reason, `(50, 400)` with the days-too-high reason, and
`(50, 30)` succeeds — four distinguishable reasons. -/
theorem ValidateCustomOrder_fails_iff_bound_violated :
    (∀ minGb maxGb minDays maxDays dataGB days : Int,
      (ValidateCustomOrder minGb maxGb minDays maxDays dataGB days).isSome =
        decide (boundViolated minGb maxGb minDays maxDays dataGB days)) ∧
    ValidateCustomOrder 10 100 7 365 5 30 = some "data less than minimum allowed" ∧
    ValidateCustomOrder 10 100 7 365 50 400 = some "days greater than maximum allowed" ∧
    ValidateCustomOrder 10 100 7 365 50 30 = none := by
  refine ⟨?_, by decide, by decide, by decide⟩
  intro minGb maxGb minDays maxDays dataGB days
  unfold ValidateCustomOrder boundViolated
  by_cases h1 : minGb > 0 ∧ dataGB < minGb <;>
    by_cases h2 : maxGb > 0 ∧ dataGB > maxGb <;>
      by_cases h3 : minDays > 0 ∧ days < minDays <;>
        by_cases h4 : maxDays > 0 ∧ days > maxDays <;>
          simp [h1, h2, h3, h4]

/-- Wraparound is the identity inside the `int64` range. -/
theorem wrap64_eq_of_bounds (x : Int) (h1 : -(2 ^ 63) ≤ x) (h2 : x < 2 ^ 63) :
    wrap64 x = x := by
  unfold wrap64
  omega

/-- Claim C7 counterexample: `CalculateCustomPrice` with a readable rate of 10
returns the negative price -10 at `dataGB = -1`, so it does not hold that it
never returns a negative price. -/
theorem CalculateCustomPrice_negative_dataGB_negative_price :
    CalculateCustomPrice (.ok 10) (-1) = .ok (-10) ∧ (-10 : Int) < 0 := by
  constructor
  · show Except.ok (wrap64 ((-1) * 10)) = Except.ok (-10)
    rw [wrap64_eq_of_bounds] <;> norm_num
  · norm_num

/-- Claim C7 as amended: `CalculateCustomPrice` fails only when the per-GB rate
cannot be read from configuration; a negative rate is clamped to zero before
multiplication; for every NON-NEGATIVE `dataGB` whose product with the clamped
rate stays below `2 ^ 63` the price is exactly `dataGB` times the clamped rate,
hence non-negative, and for a fixed rate it is monotonically non-decreasing in
such `dataGB`.  (A negative `dataGB` can produce a negative price.) -/
theorem CalculateCustomPrice_amended :
    (∀ (e : String) (d : Int), CalculateCustomPrice (.error e) d = .error e) ∧
    (∀ rate d : Int, ∃ p, CalculateCustomPrice (.ok rate) d = .ok p) ∧
    (∀ rate d : Int, 0 ≤ d → d * (if rate < 0 then 0 else rate) < 2 ^ 63 →
      CalculateCustomPrice (.ok rate) d = .ok (d * (if rate < 0 then 0 else rate)) ∧
      0 ≤ d * (if rate < 0 then 0 else rate)) ∧
    (∀ rate d d' : Int, 0 ≤ d → d ≤ d' → d' * (if rate < 0 then 0 else rate) < 2 ^ 63 →
      ∀ p p' : Int, CalculateCustomPrice (.ok rate) d = .ok p →
        CalculateCustomPrice (.ok rate) d' = .ok p' → p ≤ p') := by
  have hclamp : ∀ rate : Int, 0 ≤ (if rate < 0 then 0 else rate) := by
    intro rate; split <;> omega
  have hexact : ∀ rate d : Int, 0 ≤ d → d * (if rate < 0 then 0 else rate) < 2 ^ 63 →
      CalculateCustomPrice (.ok rate) d = .ok (d * (if rate < 0 then 0 else rate)) := by
    intro rate d hd hlt
    show Except.ok (wrap64 (d * _)) = _
    rw [wrap64_eq_of_bounds]
    · have := hclamp rate
      nlinarith
    · exact hlt
  refine ⟨fun e d => rfl, fun rate d => ⟨_, rfl⟩, ?_, ?_⟩
  · intro rate d hd hlt
    exact ⟨hexact rate d hd hlt, mul_nonneg hd (hclamp rate)⟩
  · intro rate d d' hd hdd hlt p p' hp hp'
    have hc := hclamp rate
    have hmono : d * (if rate < 0 then 0 else rate) ≤ d' * (if rate < 0 then 0 else rate) :=
      mul_le_mul_of_nonneg_right hdd hc
    rw [hexact rate d hd (lt_of_le_of_lt hmono hlt)] at hp
    rw [hexact rate d' (le_trans hd hdd) hlt] at hp'
    cases hp; cases hp'
    exact hmono

/-- Witness for the amended C7 at rate 10 and data volumes 5 and 7. -/
theorem CalculateCustomPrice_amended_witness :
    CalculateCustomPrice (.ok 10) 5 = .ok 50 ∧
    CalculateCustomPrice (.ok 10) 7 = .ok 70 ∧ (50 : Int) ≤ 70 := by
  have h5 := (CalculateCustomPrice_amended.2.2.1 10 5 (by norm_num) (by norm_num)).1
  have h7 := (CalculateCustomPrice_amended.2.2.1 10 7 (by norm_num) (by norm_num)).1
  norm_num at h5 h7
  exact ⟨h5, h7, by norm_num⟩

/-! ## Order store operations

The GORM order table is a list of `ShopOrder` rows.  `db.First(order, id)`
returns the first row with the primary key `id`, raising `ErrRecordNotFound`
when none exists; `db.Model(...).Where("id = ?", id).Updates(map)` patches
exactly the listed columns of every matching row and reports no error when
zero rows match. -/

/-- `GetOrder(id)`: `db.First` by primary key; `none` models `ErrRecordNotFound`. -/
def GetOrder (store : List ShopOrder) (id : Int) : Option ShopOrder :=
  store.find? (fun o => o.Id = id)

/-- `UpdateOrderReceipt(id, receiptPath, receiptFileId)`: patches
`receipt_path`, `receipt_file_id`, `status := PENDING_REVIEW`, `updated_at`. -/
def UpdateOrderReceipt (store : List ShopOrder) (id : Int)
    (receiptPath receiptFileId : String) (now : Nat) : List ShopOrder :=
  store.map (fun o =>
    if o.Id = id then
      { o with ReceiptPath := receiptPath, ReceiptFileId := receiptFileId,
               Status := OrderStatusPendingReview, UpdatedAt := now }
    else o)

/-- `UpdateOrderStatus(id, status, note)`: patches only `status` and
`updated_at`; the `note` argument appears in the signature but not in the
update map. -/
def UpdateOrderStatus (store : List ShopOrder) (id : Int)
    (status note : String) (now : Nat) : List ShopOrder :=
  store.map (fun o =>
    if o.Id = id then { o with Status := status, UpdatedAt := now } else o)

/-- `SetOrderProvisioned(id, email, clientId, subId)`: patches the three
identity columns, `status := APPROVED` and `updated_at`. -/
def SetOrderProvisioned (store : List ShopOrder) (id : Int)
    (email clientId subId : String) (now : Nat) : List ShopOrder :=
  store.map (fun o =>
    if o.Id = id then
      { o with ClientEmail := email, ClientId := clientId, ClientSubId := subId,
               Status := OrderStatusApproved, UpdatedAt := now }
    else o)

/-- `rejectOrder` (controller): after the id parses, calls
`UpdateOrderStatus(id, REJECTED, "")` and reports its error — `none` (success)
whenever the update itself does not fail at the database level, matched rows
or not. -/
def rejectOrder (store : List ShopOrder) (id : Int) (now : Nat) :
    Option String × List ShopOrder :=
  (none, UpdateOrderStatus store id OrderStatusRejected "" now)

/-- Claim C10: `UpdateOrderStatus` ignores its note argument — the resulting
store is identical for all values of `note` — and writes only the `status` and
`updated_at` fields of the matching order, leaving every other field and every
other order untouched. -/
theorem UpdateOrderStatus_ignores_note :
    ∀ (store : List ShopOrder) (id : Int) (status note note' : String) (now : Nat),
      UpdateOrderStatus store id status note now = UpdateOrderStatus store id status note' now ∧
      (UpdateOrderStatus store id status note now).length = store.length ∧
      ∀ i : Nat, ∀ h : i < store.length,
        ∀ h' : i < (UpdateOrderStatus store id status note now).length,
        let o := store.get ⟨i, h⟩
        let o' := (UpdateOrderStatus store id status note now).get ⟨i, h'⟩
        o'.Id = o.Id ∧ o'.TelegramId = o.TelegramId ∧ o'.PackageId = o.PackageId ∧
        o'.ReceiptPath = o.ReceiptPath ∧ o'.ReceiptFileId = o.ReceiptFileId ∧
        o'.ClientEmail = o.ClientEmail ∧ o'.ClientId = o.ClientId ∧
        o'.ClientSubId = o.ClientSubId ∧ o'.CreatedAt = o.CreatedAt ∧
        o'.Status = (if o.Id = id then status else o.Status) ∧
        o'.UpdatedAt = (if o.Id = id then now else o.UpdatedAt) := by
  intro store id status note note' now
  refine ⟨rfl, by simp [UpdateOrderStatus], ?_⟩
  intro i h h'
  simp only [UpdateOrderStatus, List.get_eq_getElem, List.getElem_map]
  by_cases hid : (store.get ⟨i, h⟩).Id = id <;>
    simp [List.get_eq_getElem] at hid ⊢ <;> simp [hid]

/-- Witness for C10 on a one-order store with two different notes. -/
theorem UpdateOrderStatus_ignores_note_witness :
    let o : ShopOrder :=
      { Id := 1, TelegramId := 5, PackageId := 2, Status := "PENDING_REVIEW",
        ReceiptPath := "r", ReceiptFileId := "f", ClientEmail := "", ClientId := "",
        ClientSubId := "", CreatedAt := 0, UpdatedAt := 0 }
    UpdateOrderStatus [o] 1 "REJECTED" "note-a" 3 =
      UpdateOrderStatus [o] 1 "REJECTED" "note-b" 3 ∧
    ((UpdateOrderStatus [o] 1 "REJECTED" "note-a" 3).get
        ⟨0, by simp [UpdateOrderStatus]⟩).ClientEmail = "" := by
  intro o
  refine ⟨(UpdateOrderStatus_ignores_note [o] 1 "REJECTED" "note-a" "note-b" 3).1, ?_⟩
  have h := ((UpdateOrderStatus_ignores_note [o] 1 "REJECTED" "note-a" "note-b" 3).2.2
    0 (by simp) (by simp [UpdateOrderStatus]))
  exact h.2.2.2.2.2.1

/-- Claim C8 counterexample: on an empty store (no order with id 7 exists),
`rejectOrder 7` reports success (`none` error) and changes nothing — it does
not fail with `NotFound`, because the underlying `Updates` call reports no
error when zero rows match and the controller performs no existence check. -/
theorem rejectOrder_missing_id_reports_success :
    rejectOrder [] 7 0 = (none, []) := by
  rfl

/-- Claim C8 as amended: `rejectOrder` performs no existence check — it reports
success even when no order with the id exists (the update matches zero rows) —
and for every existing order, regardless of its current status, it sets that
order's status to REJECTED while leaving orders with other ids unchanged. -/
theorem rejectOrder_amended :
    ∀ (store : List ShopOrder) (id : Int) (now : Nat),
      (rejectOrder store id now).1 = none ∧
      (∀ o ∈ (rejectOrder store id now).2, o.Id = id → o.Status = OrderStatusRejected) ∧
      (∀ o ∈ (rejectOrder store id now).2, o.Id ≠ id → o ∈ store) := by
  intro store id now
  refine ⟨rfl, ?_, ?_⟩
  · intro o ho hoid
    simp only [rejectOrder, UpdateOrderStatus, List.mem_map] at ho
    obtain ⟨b, _, hb⟩ := ho
    by_cases h : b.Id = id
    · simp [h] at hb; simp [← hb]
    · simp [h] at hb; subst hb; exact absurd hoid h
  · intro o ho hne
    simp only [rejectOrder, UpdateOrderStatus, List.mem_map] at ho
    obtain ⟨b, hbmem, hb⟩ := ho
    by_cases h : b.Id = id
    · simp [h] at hb; subst hb; simp at hne
    · simp [h] at hb; subst hb; exact hbmem

/-- Witness for the amended C8: rejecting order 1 in a one-order store in
status APPROVED reports success and sets the status to REJECTED. -/
theorem rejectOrder_amended_witness :
    let o : ShopOrder :=
      { Id := 1, TelegramId := 5, PackageId := 2, Status := "APPROVED",
        ReceiptPath := "r", ReceiptFileId := "f", ClientEmail := "user7@x",
        ClientId := "cid-1", ClientSubId := "sub-1", CreatedAt := 0, UpdatedAt := 1 }
    (rejectOrder [o] 1 2).1 = none ∧
    ∀ o' ∈ (rejectOrder [o] 1 2).2, o'.Id = 1 → o'.Status = OrderStatusRejected := by
  intro o
  exact ⟨(rejectOrder_amended [o] 1 2).1, (rejectOrder_amended [o] 1 2).2.1⟩

/-! ## The order invariant (claim C3) -/

/-- The status is one of the four defined values. -/
def statusValid (s : String) : Prop :=
  s = OrderStatusPendingReceipt ∨ s = OrderStatusPendingReview ∨
  s = OrderStatusApproved ∨ s = OrderStatusRejected

instance (s : String) : Decidable (statusValid s) := by
  unfold statusValid; infer_instance

/-- All three provisioned-identity fields are empty. -/
def identityEmpty (o : ShopOrder) : Prop :=
  o.ClientEmail = "" ∧ o.ClientId = "" ∧ o.ClientSubId = ""

instance (o : ShopOrder) : Decidable (identityEmpty o) := by
  unfold identityEmpty; infer_instance

/-- All three provisioned-identity fields are non-empty. -/
def identityFull (o : ShopOrder) : Prop :=
  o.ClientEmail ≠ "" ∧ o.ClientId ≠ "" ∧ o.ClientSubId ≠ ""

instance (o : ShopOrder) : Decidable (identityFull o) := by
  unfold identityFull; infer_instance

/-- The spec's per-order invariant: status in range, identity fields all empty
unless APPROVED, in which case all non-empty. -/
def orderInv (o : ShopOrder) : Prop :=
  statusValid o.Status ∧
  (o.Status = OrderStatusApproved → identityFull o) ∧
  (o.Status ≠ OrderStatusApproved → identityEmpty o)

instance (o : ShopOrder) : Decidable (orderInv o) := by
  unfold orderInv; infer_instance

/-- The invariant over a whole store. -/
def storeInv (store : List ShopOrder) : Prop :=
  ∀ o ∈ store, orderInv o

instance (store : List ShopOrder) : Decidable (storeInv store) := by
  unfold storeInv; infer_instance

/-- Claim C3 counterexample: a store holding the approved order of the spec's
scenario satisfies the invariant, yet `UpdateOrderStatus` to REJECTED (the
reject operation) breaks it — the identity fields are not cleared, producing a
REJECTED order with identity fields populated. -/
theorem storeInv_not_preserved_by_reject :
    let o : ShopOrder :=
      { Id := 7, TelegramId := 5, PackageId := 2, Status := "APPROVED",
        ReceiptPath := "r", ReceiptFileId := "f", ClientEmail := "user7@x",
        ClientId := "cid-1", ClientSubId := "sub-1", CreatedAt := 0, UpdatedAt := 1 }
    storeInv [o] ∧ ¬ storeInv (UpdateOrderStatus [o] 7 OrderStatusRejected "" 2) := by
  decide

/-- Claim C3 as amended: every operation keeps the status within the four
defined values, and the full invariant is preserved by `SetOrderProvisioned`
whenever the provisioned identity fields are non-empty, and by
`UpdateOrderReceipt` and the REJECTED `UpdateOrderStatus` whenever the
targeted order is not APPROVED; neither of the latter clears the identity
fields, so on an APPROVED order they violate the invariant (see the
counterexample). -/
theorem orderInvariant_amended :
    (∀ (store : List ShopOrder) (id : Int) (status note : String) (now : Nat),
      storeInv store → statusValid status →
      ∀ o ∈ UpdateOrderStatus store id status note now, statusValid o.Status) ∧
    (∀ (store : List ShopOrder) (id : Int) (path fid : String) (now : Nat),
      storeInv store →
      ∀ o ∈ UpdateOrderReceipt store id path fid now, statusValid o.Status) ∧
    (∀ (store : List ShopOrder) (id : Int) (email cid sid : String) (now : Nat),
      storeInv store →
      ∀ o ∈ SetOrderProvisioned store id email cid sid now, statusValid o.Status) ∧
    (∀ (store : List ShopOrder) (id : Int) (path fid : String) (now : Nat),
      storeInv store → (∀ o ∈ store, o.Id = id → o.Status ≠ OrderStatusApproved) →
      storeInv (UpdateOrderReceipt store id path fid now)) ∧
    (∀ (store : List ShopOrder) (id : Int) (note : String) (now : Nat),
      storeInv store → (∀ o ∈ store, o.Id = id → o.Status ≠ OrderStatusApproved) →
      storeInv (UpdateOrderStatus store id OrderStatusRejected note now)) ∧
    (∀ (store : List ShopOrder) (id : Int) (email cid sid : String) (now : Nat),
      storeInv store → email ≠ "" → cid ≠ "" → sid ≠ "" →
      storeInv (SetOrderProvisioned store id email cid sid now)) := by
  have hmem : ∀ (store : List ShopOrder) (f : ShopOrder → ShopOrder) (o : ShopOrder),
      o ∈ store.map f → ∃ b ∈ store, f b = o := by
    intro store f o ho
    simpa [List.mem_map] using ho
  have hPRne : OrderStatusPendingReview ≠ OrderStatusApproved := by decide
  have hRJne : OrderStatusRejected ≠ OrderStatusApproved := by decide
  refine ⟨?_, ?_, ?_, ?_, ?_, ?_⟩
  · intro store id status note now hinv hst o ho
    obtain ⟨b, hbmem, hb⟩ := hmem _ _ _ ho
    by_cases h : b.Id = id
    · simp only [h, if_pos] at hb
      subst hb
      exact hst
    · simp only [h, if_neg, not_false_iff] at hb
      subst hb
      exact (hinv b hbmem).1
  · intro store id path fid now hinv o ho
    obtain ⟨b, hbmem, hb⟩ := hmem _ _ _ ho
    by_cases h : b.Id = id
    · simp only [h, if_pos] at hb
      subst hb
      exact Or.inr (Or.inl rfl)
    · simp only [h, if_neg, not_false_iff] at hb
      subst hb
      exact (hinv b hbmem).1
  · intro store id email cid sid now hinv o ho
    obtain ⟨b, hbmem, hb⟩ := hmem _ _ _ ho
    by_cases h : b.Id = id
    · simp only [h, if_pos] at hb
      subst hb
      exact Or.inr (Or.inr (Or.inl rfl))
    · simp only [h, if_neg, not_false_iff] at hb
      subst hb
      exact (hinv b hbmem).1
  · intro store id path fid now hinv htarget o ho
    obtain ⟨b, hbmem, hb⟩ := hmem _ _ _ ho
    by_cases h : b.Id = id
    · simp only [h, if_pos] at hb
      subst hb
      have hemp := (hinv b hbmem).2.2 (htarget b hbmem h)
      exact ⟨Or.inr (Or.inl rfl), fun hc => absurd hc hPRne, fun _ => hemp⟩
    · simp only [h, if_neg, not_false_iff] at hb
      subst hb
      exact hinv b hbmem
  · intro store id note now hinv htarget o ho
    obtain ⟨b, hbmem, hb⟩ := hmem _ _ _ ho
    by_cases h : b.Id = id
    · simp only [h, if_pos] at hb
      subst hb
      have hemp := (hinv b hbmem).2.2 (htarget b hbmem h)
      exact ⟨Or.inr (Or.inr (Or.inr rfl)), fun hc => absurd hc hRJne, fun _ => hemp⟩
    · simp only [h, if_neg, not_false_iff] at hb
      subst hb
      exact hinv b hbmem
  · intro store id email cid sid now hinv hemail hcid hsid o ho
    obtain ⟨b, hbmem, hb⟩ := hmem _ _ _ ho
    by_cases h : b.Id = id
    · simp only [h, if_pos] at hb
      subst hb
      exact ⟨Or.inr (Or.inr (Or.inl rfl)), fun _ => ⟨hemail, hcid, hsid⟩,
        fun hc => absurd rfl hc⟩
    · simp only [h, if_neg, not_false_iff] at hb
      subst hb
      exact hinv b hbmem

/-- Witness for the amended C3: provisioning the pending-review order 7 with
the scenario's non-empty identity preserves the invariant, and the REJECTED
status update on that store preserves it too. -/
theorem orderInvariant_amended_witness :
    let o : ShopOrder :=
      { Id := 7, TelegramId := 5, PackageId := 2, Status := "PENDING_REVIEW",
        ReceiptPath := "r", ReceiptFileId := "f", ClientEmail := "", ClientId := "",
        ClientSubId := "", CreatedAt := 0, UpdatedAt := 1 }
    storeInv (SetOrderProvisioned [o] 7 "user7@x" "cid-1" "sub-1" 2) ∧
    storeInv (UpdateOrderStatus [o] 7 OrderStatusRejected "" 2) := by
  intro o
  constructor
  · exact orderInvariant_amended.2.2.2.2.2 [o] 7 "user7@x" "cid-1" "sub-1" 2
      (by decide) (by decide) (by decide) (by decide)
  · exact orderInvariant_amended.2.2.2.2.1 [o] 7 "" 2 (by decide) (by decide)

/-! ## Lifecycle controller: `approveOrder` (claims C1, C2) -/

/-- The response `approveOrder` reports through `jsonMsg`. -/
inductive ApproveResult where
  | orderNotFound
  | orderNotReady
  | provisionFailed (e : String)
  | approved
deriving DecidableEq, Repr

/-- Outcome of one `approveOrder` request: the reported result, the store
after the request, the number of `ProvisionOrder` invocations, the number of
warnings logged, and whether the fulfillment notification was sent. -/
structure ApproveOutcome where
  result : ApproveResult
  store : List ShopOrder
  provisionCalls : Nat
  warningsLogged : Nat
  notified : Bool
deriving DecidableEq, Repr

/-- `approveOrder` (controller), after the id parses: fetch the order with
`GetOrder`; require status PENDING_REVIEW; invoke the Provisioner
(`tgbotService.ProvisionOrder`); then `SetOrderProvisioned`.  A failure of
that store update is only logged as a warning (`order provision saved
partially`) — the request still notifies the user and still reports
`approved`.  `dbUpdateFails` models a database-level failure of the
`SetOrderProvisioned` call (in which case the table is unchanged). -/
def approveOrder (store : List ShopOrder)
    (provision : ShopOrder → Except String (String × String × String))
    (dbUpdateFails : Bool) (now : Nat) (id : Int) : ApproveOutcome :=
  match GetOrder store id with
  | none => ⟨.orderNotFound, store, 0, 0, false⟩
  | some order =>
    if order.Status ≠ OrderStatusPendingReview then ⟨.orderNotReady, store, 0, 0, false⟩
    else
      match provision order with
      | .error e => ⟨.provisionFailed e, store, 1, 0, false⟩
      | .ok (email, clientId, subId) =>
        if dbUpdateFails then ⟨.approved, store, 1, 1, true⟩
        else
          ⟨.approved, SetOrderProvisioned store order.Id email clientId subId now, 1, 0, true⟩

/-- Claim C1: `approveOrder` fails with the not-found response when the id
does not resolve and with the not-ready response when the order exists in a
status other than PENDING_REVIEW; in both cases the store is unchanged and
the Provisioner is not called; and whenever the Provisioner is called, the
order existed in status PENDING_REVIEW. -/
theorem approveOrder_precondition :
    ∀ (store : List ShopOrder)
      (provision : ShopOrder → Except String (String × String × String))
      (dbUpdateFails : Bool) (now : Nat) (id : Int),
      (GetOrder store id = none →
        approveOrder store provision dbUpdateFails now id =
          ⟨.orderNotFound, store, 0, 0, false⟩) ∧
      (∀ o, GetOrder store id = some o → o.Status ≠ OrderStatusPendingReview →
        approveOrder store provision dbUpdateFails now id =
          ⟨.orderNotReady, store, 0, 0, false⟩) ∧
      ((approveOrder store provision dbUpdateFails now id).provisionCalls ≠ 0 →
        ∃ o, GetOrder store id = some o ∧ o.Status = OrderStatusPendingReview) := by
  intro store provision dbUpdateFails now id
  refine ⟨?_, ?_, ?_⟩
  · intro h
    simp [approveOrder, h]
  · intro o ho hne
    simp [approveOrder, ho, hne]
  · intro hcalls
    unfold approveOrder at hcalls
    cases hg : GetOrder store id with
    | none => rw [hg] at hcalls; simp at hcalls
    | some o =>
      rw [hg] at hcalls
      by_cases hs : o.Status = OrderStatusPendingReview
      · exact ⟨o, rfl, hs⟩
      · simp [hs] at hcalls

/-- Witness for C1: on a two-order store (order 7 in PENDING_REVIEW, order 3
APPROVED), approving the missing id 9 reports not-found, approving order 3
reports not-ready, and in both cases the Provisioner is not invoked; approving
order 7 does invoke it. -/
theorem approveOrder_precondition_witness :
    let o7 : ShopOrder :=
      { Id := 7, TelegramId := 5, PackageId := 2, Status := "PENDING_REVIEW",
        ReceiptPath := "r", ReceiptFileId := "f", ClientEmail := "", ClientId := "",
        ClientSubId := "", CreatedAt := 0, UpdatedAt := 1 }
    let o3 : ShopOrder :=
      { Id := 3, TelegramId := 6, PackageId := 2, Status := "APPROVED",
        ReceiptPath := "r", ReceiptFileId := "f", ClientEmail := "a@x", ClientId := "c",
        ClientSubId := "s", CreatedAt := 0, UpdatedAt := 1 }
    let prov : ShopOrder → Except String (String × String × String) :=
      fun _ => .ok ("user7@x", "cid-1", "sub-1")
    approveOrder [o7, o3] prov false 2 9 = ⟨.orderNotFound, [o7, o3], 0, 0, false⟩ ∧
    approveOrder [o7, o3] prov false 2 3 = ⟨.orderNotReady, [o7, o3], 0, 0, false⟩ ∧
    (approveOrder [o7, o3] prov false 2 7).provisionCalls = 1 := by
  intro o7 o3 prov
  refine ⟨?_, ?_, by rfl⟩
  · exact (approveOrder_precondition [o7, o3] prov false 2 9).1 (by decide)
  · exact (approveOrder_precondition [o7, o3] prov false 2 3).2.1 o3 (by decide) (by decide)

/-- Claim C2 counterexample: order 7 is in PENDING_REVIEW, the Provisioner
succeeds, and the `SetOrderProvisioned` update fails — yet `approveOrder`
reports the ordinary success response `approved` (with one warning logged and
the notification still sent), not a failure: the store failure is not
surfaced to the caller at all. -/
theorem approveOrder_store_failure_reports_success :
    let o7 : ShopOrder :=
      { Id := 7, TelegramId := 5, PackageId := 2, Status := "PENDING_REVIEW",
        ReceiptPath := "r", ReceiptFileId := "f", ClientEmail := "", ClientId := "",
        ClientSubId := "", CreatedAt := 0, UpdatedAt := 1 }
    let prov : ShopOrder → Except String (String × String × String) :=
      fun _ => .ok ("user7@x", "cid-1", "sub-1")
    approveOrder [o7] prov true 2 7 = ⟨.approved, [o7], 1, 1, true⟩ := by
  rfl

/-- Claim C2 as amended: when the Provisioner call succeeds but the follow-up
`SetOrderProvisioned` update fails, the failure is only logged at warning
severity — the operation is reported to the caller as the ordinary success
response `approved`, the store is left unchanged (the order remains in
PENDING_REVIEW), and the fulfillment notification is still sent; no distinct
recoverable condition is surfaced to the caller. -/
theorem approveOrder_store_failure_amended :
    ∀ (store : List ShopOrder)
      (provision : ShopOrder → Except String (String × String × String))
      (now : Nat) (id : Int) (o : ShopOrder) (email clientId subId : String),
      GetOrder store id = some o → o.Status = OrderStatusPendingReview →
      provision o = .ok (email, clientId, subId) →
      approveOrder store provision true now id = ⟨.approved, store, 1, 1, true⟩ := by
  intro store provision now id o email clientId subId hget hstat hprov
  simp [approveOrder, hget, hstat, hprov]

/-- Witness for the amended C2 on the scenario store. -/
theorem approveOrder_store_failure_amended_witness :
    let o7 : ShopOrder :=
      { Id := 7, TelegramId := 5, PackageId := 2, Status := "PENDING_REVIEW",
        ReceiptPath := "r", ReceiptFileId := "f", ClientEmail := "", ClientId := "",
        ClientSubId := "", CreatedAt := 0, UpdatedAt := 1 }
    let prov : ShopOrder → Except String (String × String × String) :=
      fun _ => .ok ("user7@x", "cid-1", "sub-1")
    approveOrder [o7] prov true 2 7 = ⟨.approved, [o7], 1, 1, true⟩ := by
  intro o7 prov
  exact approveOrder_store_failure_amended [o7] prov 2 7 o7 "user7@x" "cid-1" "sub-1"
    (by decide) (by decide) rfl

/-! ## Two concurrent approvals (claim C4)

`approveOrder` takes no per-order lock and performs no conditional update:
its status check, its Provisioner call and its store write are separate
steps over the shared order table.  We interleave two requests for the same
id at that step granularity. -/

/-- The control point an in-flight `approveOrder` request has reached. -/
inductive ThreadPhase where
  | atCheck
  | atProvision (order : ShopOrder)
  | atWrite (order : ShopOrder) (email clientId subId : String)
  | finished (r : ApproveResult)
deriving DecidableEq, Repr

/-- State shared by the two requests: the order table and the number of
Provisioner invocations so far. -/
structure SharedState where
  store : List ShopOrder
  provisionCalls : Nat
deriving DecidableEq, Repr

/-- One atomic step of an `approveOrder` request, mirroring the three
non-atomic stages of the controller body. -/
def stepThread (provision : ShopOrder → Except String (String × String × String))
    (now : Nat) (id : Int) (g : SharedState) :
    ThreadPhase → SharedState × ThreadPhase
  | .atCheck =>
    match GetOrder g.store id with
    | none => (g, .finished .orderNotFound)
    | some order =>
      if order.Status ≠ OrderStatusPendingReview then (g, .finished .orderNotReady)
      else (g, .atProvision order)
  | .atProvision order =>
    match provision order with
    | .error e =>
      ({ g with provisionCalls := g.provisionCalls + 1 }, .finished (.provisionFailed e))
    | .ok (email, clientId, subId) =>
      ({ g with provisionCalls := g.provisionCalls + 1 }, .atWrite order email clientId subId)
  | .atWrite order email clientId subId =>
    ({ g with store := SetOrderProvisioned g.store order.Id email clientId subId now },
      .finished .approved)
  | .finished r => (g, .finished r)

/-- Two `approveOrder` requests for the same order in flight. -/
structure TwoApproves where
  shared : SharedState
  threadA : ThreadPhase
  threadB : ThreadPhase
deriving DecidableEq, Repr

/-- Run one step of thread B (`true`) or thread A (`false`). -/
def stepPair (provision : ShopOrder → Except String (String × String × String))
    (now : Nat) (id : Int) (s : TwoApproves) (pickB : Bool) : TwoApproves :=
  if pickB then
    let gt := stepThread provision now id s.shared s.threadB
    { s with shared := gt.1, threadB := gt.2 }
  else
    let gt := stepThread provision now id s.shared s.threadA
    { s with shared := gt.1, threadA := gt.2 }

/-- Run both requests under a given interleaving schedule. -/
def runSchedule (provision : ShopOrder → Except String (String × String × String))
    (now : Nat) (id : Int) (sched : List Bool) (s : TwoApproves) : TwoApproves :=
  sched.foldl (stepPair provision now id) s

/-- Claim C4 at its failing input: with order 7 in PENDING_REVIEW, under the
interleaving in which both requests pass the PENDING_REVIEW check before
either writes, BOTH requests invoke the Provisioner (two invocations) and
both report `approved`; under a serialized schedule the second request fails
the check and exactly one invocation occurs — so the code provides at-most-
once provisioning only when the two calls do not interleave. -/
theorem approveOrder_double_provision_interleaving :
    let o7 : ShopOrder :=
      { Id := 7, TelegramId := 5, PackageId := 2, Status := "PENDING_REVIEW",
        ReceiptPath := "r", ReceiptFileId := "f", ClientEmail := "", ClientId := "",
        ClientSubId := "", CreatedAt := 0, UpdatedAt := 1 }
    let prov : ShopOrder → Except String (String × String × String) :=
      fun _ => .ok ("user7@x", "cid-1", "sub-1")
    let init : TwoApproves := ⟨⟨[o7], 0⟩, .atCheck, .atCheck⟩
    let racy := runSchedule prov 2 7 [false, true, false, false, true, true] init
    let serial := runSchedule prov 2 7 [false, false, false, true] init
    racy.shared.provisionCalls = 2 ∧
    racy.threadA = .finished .approved ∧
    racy.threadB = .finished .approved ∧
    serial.shared.provisionCalls = 1 ∧
    serial.threadA = .finished .approved ∧
    serial.threadB = .finished .orderNotReady := by
  exact ⟨rfl, rfl, rfl, rfl, rfl, rfl⟩

/-! ## Inbound visibility (`ListInbounds`, claim C5) -/

/-- A configured inbound, as returned by the proxy-configuration source. -/
structure Inbound where
  Id : Int
  Remark : String
  Protocol : String
  Port : Int
deriving DecidableEq, Repr

/-- An override row (`model.ShopInbound`): inbound reference and enabled flag. -/
structure ShopInbound where
  InboundId : Int
  Enabled : Bool
deriving DecidableEq, Repr

/-- An entry of the `ListInbounds` response. -/
structure ShopInboundOption where
  Id : Int
  Remark : String
  Protocol : String
  Port : Int
  Enabled : Bool
deriving DecidableEq, Repr

/-- The `enabledMap` built by the loop over the override rows: a Go map where
a later row for the same inbound id overwrites an earlier one, and a missing
key reads as `false`. -/
def enabledMap (rows : List ShopInbound) : Int → Bool :=
  rows.foldl (fun m item => fun j => if j = item.InboundId then item.Enabled else m j)
    (fun _ => false)

/-- `ListInbounds`: fetch all configured inbounds and all override rows, mark
each inbound enabled from the map — forced to `true` for every inbound when
the override table has zero rows — and sort the options ascending by id
(`sort.Slice` with an `Id`-comparison, modelled by a comparison sort). -/
def ListInbounds (inbounds : List Inbound) (shopInbounds : List ShopInbound) :
    List ShopInboundOption :=
  let useDefaultAll := shopInbounds.isEmpty
  let options := inbounds.map (fun inbound =>
    let enabled := if useDefaultAll then true else enabledMap shopInbounds inbound.Id
    { Id := inbound.Id, Remark := inbound.Remark, Protocol := inbound.Protocol,
      Port := inbound.Port, Enabled := enabled : ShopInboundOption })
  options.mergeSort (fun a b => decide (a.Id ≤ b.Id))

/-- Appending a row to the override table overwrites only its own key. -/
theorem enabledMap_append (rows : List ShopInbound) (r : ShopInbound) (j : Int) :
    enabledMap (rows ++ [r]) j =
      if j = r.InboundId then r.Enabled else enabledMap rows j := by
  simp [enabledMap, List.foldl_append]

/-- With at most one row per inbound id, the map reads `true` exactly when an
override row with that id and `enabled = true` exists. -/
theorem enabledMap_eq_true_iff (rows : List ShopInbound) :
    (rows.map ShopInbound.InboundId).Nodup → ∀ i : Int,
      (enabledMap rows i = true ↔ ∃ r ∈ rows, r.InboundId = i ∧ r.Enabled = true) := by
  induction rows using List.reverseRecOn with
  | nil => intro _ i; simp [enabledMap]
  | append_singleton rows r ih =>
    intro hnd i
    rw [enabledMap_append]
    rw [List.map_append, List.nodup_append] at hnd
    by_cases hji : i = r.InboundId
    · have hnotin : ∀ q ∈ rows, q.InboundId ≠ i := by
        intro q hq hqi
        exact hnd.2.2 (List.mem_map_of_mem ShopInbound.InboundId hq) (by simp [hqi, hji])
      rw [if_pos hji]
      constructor
      · intro he
        exact ⟨r, by simp, hji.symm, he⟩
      · rintro ⟨q, hq, hqi, hqe⟩
        rcases List.mem_append.1 hq with hq | hq
        · exact absurd hqi (hnotin q hq)
        · simp at hq
          subst hq
          exact hqe
    · rw [if_neg hji, ih hnd.1 i]
      constructor
      · rintro ⟨q, hq, hqi, hqe⟩
        exact ⟨q, List.mem_append_left _ hq, hqi, hqe⟩
      · rintro ⟨q, hq, hqi, hqe⟩
        rcases List.mem_append.1 hq with hq | hq
        · exact ⟨q, hq, hqi, hqe⟩
        · simp at hq
          subst hq
          exact absurd hqi.symm hji

/-- Claim C5: `ListInbounds` returns one entry per configured inbound (the
multiset of entry ids equals the multiset of configured inbound ids), sorted
ascending by inbound id; with zero override rows every entry is enabled; and
with at least one override row — the table holding at most one row per
inbound, as maintained by its only mutator `SetInboundEnabled` — an entry is
enabled exactly when an override row for its inbound exists with
`enabled = true`. -/
theorem ListInbounds_spec :
    ∀ (inbounds : List Inbound) (rows : List ShopInbound),
      ((ListInbounds inbounds rows).map (fun o => o.Id)).Perm
        (inbounds.map (fun ib => ib.Id)) ∧
      (ListInbounds inbounds rows).Pairwise (fun a b => a.Id ≤ b.Id) ∧
      (rows = [] → ∀ o ∈ ListInbounds inbounds rows, o.Enabled = true) ∧
      (rows ≠ [] → (rows.map ShopInbound.InboundId).Nodup →
        ∀ o ∈ ListInbounds inbounds rows,
          (o.Enabled = true ↔ ∃ r ∈ rows, r.InboundId = o.Id ∧ r.Enabled = true)) := by
  intro inbounds rows
  have hperm := List.mergeSort_perm
    (inbounds.map (fun inbound =>
      let enabled := if rows.isEmpty then true else enabledMap rows inbound.Id
      { Id := inbound.Id, Remark := inbound.Remark, Protocol := inbound.Protocol,
        Port := inbound.Port, Enabled := enabled : ShopInboundOption }))
    (fun a b => decide (a.Id ≤ b.Id))
  refine ⟨?_, ?_, ?_, ?_⟩
  · refine (hperm.map (fun o => o.Id)).trans ?_
    rw [List.map_map]
    exact List.Perm.refl _
  · have hs := @List.sorted_mergeSort ShopInboundOption
      (fun a b => decide (a.Id ≤ b.Id))
      (fun a b c hab hbc => by
        simp only [decide_eq_true_eq] at hab hbc ⊢
        omega)
      (fun a b => by
        simpa using Int.le_total a.Id b.Id)
      (inbounds.map (fun inbound =>
        let enabled := if rows.isEmpty then true else enabledMap rows inbound.Id
        { Id := inbound.Id, Remark := inbound.Remark, Protocol := inbound.Protocol,
          Port := inbound.Port, Enabled := enabled : ShopInboundOption }))
    exact hs.imp (fun h => of_decide_eq_true h)
  · intro hrows o ho
    have homem := hperm.subset ho
    simp only [List.mem_map] at homem
    obtain ⟨ib, _, hib⟩ := homem
    subst hib
    subst hrows
    rfl
  · intro hrows hnd o ho
    have homem := hperm.subset ho
    simp only [List.mem_map] at homem
    obtain ⟨ib, _, hib⟩ := homem
    subst hib
    cases rows with
    | nil => exact absurd rfl hrows
    | cons r rest => exact enabledMap_eq_true_iff (r :: rest) hnd ib.Id

/-- Witness for C5: three configured inbounds; with no override rows all are
enabled; with a single override row for inbound 3 only inbound 3 is enabled. -/
theorem ListInbounds_spec_witness :
    let i1 : Inbound := { Id := 1, Remark := "a", Protocol := "vless", Port := 443 }
    let i3 : Inbound := { Id := 3, Remark := "b", Protocol := "vmess", Port := 80 }
    let i2 : Inbound := { Id := 2, Remark := "c", Protocol := "trojan", Port := 8443 }
    let row3 : ShopInbound := { InboundId := 3, Enabled := true }
    (∀ o ∈ ListInbounds [i1, i3, i2] [], o.Enabled = true) ∧
    (∀ o ∈ ListInbounds [i1, i3, i2] [row3],
      (o.Enabled = true ↔ ∃ r ∈ [row3], r.InboundId = o.Id ∧ r.Enabled = true)) := by
  intro i1 i3 i2 row3
  constructor
  · exact (ListInbounds_spec [i1, i3, i2] []).2.2.1 rfl
  · exact (ListInbounds_spec [i1, i3, i2] [row3]).2.2.2 (by decide) (by decide)

/-! ## Receipt serving (`getReceipt`, claim C9)

`filepath.Clean` is modelled over the character list of the path
(`String.data`), mirroring the Go algorithm: split into slash-separated
elements, skip empty and `.` elements, let `..` drop the preceding element
(vanishing at the root of a rooted path, accumulating in front of a relative
path), and rejoin. -/

/-- Split a character list into its slash-separated elements. -/
def splitSlash : List Char → List Char → List String
  | acc, [] => [String.mk acc.reverse]
  | acc, c :: rest =>
    if c = '/' then String.mk acc.reverse :: splitSlash [] rest
    else splitSlash (c :: acc) rest

/-- The element processing of Go `filepath.Clean`. -/
def cleanStack (rooted : Bool) : List String → List String → List String
  | acc, [] => acc.reverse
  | acc, c :: rest =>
    if c = "" ∨ c = "." then cleanStack rooted acc rest
    else if c = ".." then
      match acc with
      | [] =>
        if rooted then cleanStack rooted [] rest
        else cleanStack rooted [".."] rest
      | top :: acc2 =>
        if top = ".." then cleanStack rooted (".." :: top :: acc2) rest
        else cleanStack rooted acc2 rest
    else cleanStack rooted (c :: acc) rest

/-- Rejoin path elements with slashes. -/
def joinSlash : List String → String
  | [] => ""
  | [c] => c
  | c :: rest => c ++ "/" ++ joinSlash rest

/-- Go `filepath.Clean` (slash paths): shortest lexically equivalent path. -/
def filepathClean (p : String) : String :=
  if p = "" then "."
  else
    let rooted : Bool := match p.data with
      | '/' :: _ => true
      | _ => false
    let comps := cleanStack rooted [] (splitSlash [] p.data)
    if rooted then
      if comps.isEmpty then "/" else "/" ++ joinSlash comps
    else
      if comps.isEmpty then "." else joinSlash comps

/-- The controller response of `getReceipt`: an aborted status or the served
file path. -/
inductive ReceiptResult where
  | badRequest
  | notFound
  | file (path : String)
deriving DecidableEq, Repr

/-- `getReceipt` (controller), after the id parses: fetch the order, 404 when
it is missing or has no stored receipt path, clean the stored path with
`filepath.Clean`, 404 when `os.Stat` fails (the path is not in the file
system `fs`), otherwise serve the cleaned path.  No check against any
storage root is performed. -/
def getReceipt (store : List ShopOrder) (fs : List String) (id : Int) :
    ReceiptResult :=
  match GetOrder store id with
  | none => .notFound
  | some order =>
    if order.ReceiptPath = "" then .notFound
    else
      let path := filepathClean order.ReceiptPath
      if path ∈ fs then .file path else .notFound

/-- Modelled from the spec: the storage-root containment property the spec
requires of receipt serving ("the resolved path stays within the configured
storage root").  The source configures no storage root and performs no such
check, so the property itself is taken from the spec's words: the resolved
path is the root itself or lies strictly below it. -/
def withinRoot (root p : String) : Bool :=
  p == root || List.isPrefixOf (root ++ "/").data p.data

/-- Claim C9 at its failing input: an order whose stored receipt path is
`/data/receipts/../../etc/passwd` resolves (via `filepath.Clean`) to
`/etc/passwd`, which exists — `getReceipt` serves it although it lies outside
the storage root `/data/receipts`: the resolved path is never validated
against a storage root. -/
theorem getReceipt_serves_outside_root :
    let o : ShopOrder :=
      { Id := 1, TelegramId := 5, PackageId := 2, Status := "PENDING_REVIEW",
        ReceiptPath := "/data/receipts/../../etc/passwd", ReceiptFileId := "f",
        ClientEmail := "", ClientId := "", ClientSubId := "", CreatedAt := 0,
        UpdatedAt := 1 }
    filepathClean "/data/receipts/../../etc/passwd" = "/etc/passwd" ∧
    getReceipt [o] ["/etc/passwd"] 1 = .file "/etc/passwd" ∧
    withinRoot "/data/receipts" "/etc/passwd" = false := by
  refine ⟨by decide, by decide, by decide⟩
